import Mathlib

/-!
Shallow embedding of the SSH-Keys-Portal backend core
(`backend-py/app/services/{deploy,policy,security,worker}.py`) and proofs
about its specified behaviour.  Machine state (SQLAlchemy rows) is modelled
as explicit lists of records; timestamps are natural numbers; external
effects (SSH transport, regular-expression engine, SHA-256) are explicit
function parameters or failure oracles.
-/

namespace SSHPortal

/-- Python truthiness of an optional string: `None` and `""` are falsy. -/
def optTruthy : Option String → Bool
  | some s => !(s == "")
  | none => false

/-- Drop leading and trailing whitespace from a character list. -/
def stripChars (l : List Char) : List Char :=
  ((l.dropWhile Char.isWhitespace).reverse.dropWhile Char.isWhitespace).reverse

/-- Python `str.strip()`. -/
def pyStrip (s : String) : String := String.mk (stripChars s.data)

/-- Split a character list at every occurrence of `c` (Python single-separator
split semantics: empty segments are kept, the empty list yields one empty
segment). -/
def splitChars (c : Char) : List Char → List (List Char)
  | [] => [[]]
  | x :: xs =>
    let r := splitChars c xs
    if x = c then [] :: r
    else match r with
      | [] => [[x]]
      | y :: ys => (x :: y) :: ys

/-- Python `s.split(sep)` for a single-character separator. -/
def pySplit (sep : Char) (s : String) : List String := (splitChars sep s.data).map String.mk

/-- Row of the `ssh_keys` table, restricted to the fields the deployment
pipeline reads (`user_id`, `status`, `public_key`, `authorized_keys_options`,
`last_applied_at`). -/
structure SSHKeyRec where
  userId : Nat
  status : String
  publicKey : String
  options : Option String
  lastAppliedAt : Option Nat
deriving DecidableEq

/-- Python `sep.join(lines)`. -/
def joinWith (sep : String) : List String → String
  | [] => ""
  | [x] => x
  | x :: y :: xs => x ++ sep ++ joinWith sep (y :: xs)

/-- The `db.query(SSHKey).filter` selection of active keys of one user
used by both `render_authorized_keys_for_account` and the post-success stamp
in `apply_to_host_account`. -/
def activeKeysFor (keys : List SSHKeyRec) (uid : Nat) : List SSHKeyRec :=
  keys.filter (fun k => k.userId == uid && k.status == "active")

/-- One authorized_keys line as built in `render_authorized_keys_for_account`:
per-key options first (when truthy), then global options (when truthy), then
the stripped public key, joined by single spaces. -/
def renderLine (globalOptions : Option String) (k : SSHKeyRec) : String :=
  let parts1 : List String :=
    if optTruthy k.options then [pyStrip (k.options.getD "")] else []
  let parts2 : List String :=
    if optTruthy globalOptions then parts1 ++ [pyStrip (globalOptions.getD "")] else parts1
  joinWith " " (parts2 ++ [pyStrip k.publicKey])

/-- `render_authorized_keys_for_account` (deploy.py): returns
`(content, checksum, key_count)`.  The SHA-256 hex digest is the explicit
parameter `hash` (an external library call in the source). -/
def render_authorized_keys_for_account (hash : String → String)
    (keys : List SSHKeyRec) (uid : Nat) (globalOptions : Option String) :
    String × String × Nat :=
  let contentLines := (activeKeysFor keys uid).map (renderLine globalOptions)
  let content := if contentLines.isEmpty then "" else joinWith "\n" contentLines ++ "\n"
  (content, hash content, (activeKeysFor keys uid).length)

/-- Modelled from the spec sentence for the rendered line shape: the per-key option string of the key (if present) followed by the public-key material,
joined by a space.  Used to compare the source rendering against the claim. -/
def specLine (k : SSHKeyRec) : String :=
  match k.options with
  | some o => if o = "" then pyStrip k.publicKey else pyStrip o ++ " " ++ pyStrip k.publicKey
  | none => pyStrip k.publicKey

theorem renderLine_eq_specLine (k : SSHKeyRec) :
    renderLine none k = specLine k := by
  unfold renderLine specLine
  cases h : k.options with
  | none => simp [optTruthy, joinWith]
  | some o =>
    by_cases ho : o = "" <;> simp [optTruthy, ho, joinWith]

theorem specLine_ne_empty (k : SSHKeyRec) (h : pyStrip k.publicKey ≠ "") :
    specLine k ≠ "" := by
  unfold specLine
  cases k.options with
  | none => exact h
  | some o =>
    by_cases ho : o = ""
    · simpa [ho] using h
    · simp only [ho, if_false]
      intro hcontra
      have hlen := congrArg String.length hcontra
      simp [String.length_append] at hlen
      exact absurd hlen.1.2 (by decide)

theorem map_renderLine_none_eq_map_specLine (ks : List SSHKeyRec) :
    ks.map (renderLine none) = ks.map specLine := by
  induction ks with
  | nil => rfl
  | cons k ks ih => simp [ih, renderLine_eq_specLine]

/-- C3: for an identity with N active keys and no global option string,
`render_authorized_keys_for_account` yields exactly the N per-key lines
(per-key option string, when present, followed by the stripped key material,
space-separated), each non-empty; the content is those lines joined by
newline with a trailing newline when N > 0 and the empty string when N = 0;
the checksum is the digest of exactly that content and the key count is N. -/
theorem render_no_global_options_spec (hash : String → String)
    (keys : List SSHKeyRec) (uid : Nat)
    (hpk : ∀ k ∈ activeKeysFor keys uid, pyStrip k.publicKey ≠ "") :
    let out := render_authorized_keys_for_account hash keys uid none
    let lines := (activeKeysFor keys uid).map specLine
    let N := (activeKeysFor keys uid).length
    out.2.2 = N ∧
    lines.length = N ∧
    (∀ l ∈ lines, l ≠ "") ∧
    out.1 = (if N = 0 then "" else joinWith "\n" lines ++ "\n") ∧
    out.2.1 = hash out.1 := by
  intro out lines N
  refine ⟨rfl, by simp [lines, N], ?_, ?_, rfl⟩
  · intro l hl
    obtain ⟨k, hk, rfl⟩ := List.mem_map.mp hl
    exact specLine_ne_empty k (hpk k hk)
  · show (if ((activeKeysFor keys uid).map (renderLine none)).isEmpty then ""
      else joinWith "\n" ((activeKeysFor keys uid).map (renderLine none)) ++ "\n") = _
    rw [map_renderLine_none_eq_map_specLine]
    by_cases h0 : (activeKeysFor keys uid).length = 0
    · have : activeKeysFor keys uid = [] := List.length_eq_zero.mp h0
      simp [N, this, h0]
    · have hne : activeKeysFor keys uid ≠ [] := by
        intro hc; exact h0 (by simp [hc])
      have hli : ((activeKeysFor keys uid).map specLine).isEmpty = false := by
        simp [List.isEmpty_iff, hne]
      simp [hli, lines, N, h0]

/-- Concrete digest stand-in for the external SHA-256 call in the C3 witness. -/
def c3hash (s : String) : String := "sha256:" ++ s

/-- Concrete key-table instance for the C3 witness. -/
def c3keys : List SSHKeyRec :=
  [{ userId := 7, status := "active", publicKey := "ssh-ed25519 AAAA alice", options := some "no-pty", lastAppliedAt := none },
   { userId := 7, status := "active", publicKey := " ssh-rsa BBBB alice ", options := none, lastAppliedAt := none },
   { userId := 8, status := "active", publicKey := "ssh-rsa CCCC bob", options := none, lastAppliedAt := none },
   { userId := 7, status := "revoked", publicKey := "ssh-rsa DDDD alice", options := none, lastAppliedAt := none }]

theorem render_no_global_options_spec_witness :
    let out := render_authorized_keys_for_account c3hash c3keys 7 none
    let lines := (activeKeysFor c3keys 7).map specLine
    let N := (activeKeysFor c3keys 7).length
    out.2.2 = N ∧
    lines.length = N ∧
    (∀ l ∈ lines, l ≠ "") ∧
    out.1 = (if N = 0 then "" else joinWith "\n" lines ++ "\n") ∧
    out.2.1 = c3hash out.1 :=
  render_no_global_options_spec c3hash c3keys 7 (by decide)

/-- Rule-set held by a `Policy` row (`PolicyRules.__init__` in policy.py),
with the same hard-coded defaults when a field is absent. -/
structure PolicyRules where
  allowedAlgorithms : List String
  minKeyLengths : List (String × Nat)
  defaultTtlDays : Nat
  maxKeysPerUser : Nat
  commentRegex : Option String
  allowedOptions : List String
deriving DecidableEq

/-- Defaults produced by `PolicyRules({})`. -/
def defaultPolicyRules : PolicyRules :=
  { allowedAlgorithms := ["ssh-ed25519", "ssh-rsa"]
    minKeyLengths := [("ssh-rsa", 2048), ("ssh-ed25519", 256), ("ecdsa-sha2-nistp256", 256)]
    defaultTtlDays := 365
    maxKeysPerUser := 5
    commentRegex := none
    allowedOptions := ["no-port-forwarding", "no-agent-forwarding", "no-X11-forwarding",
                       "no-pty", "restrict", "from"] }

/-- Option-name extraction of `validate_key_against_policy`:
split at `=`, then at `:`, take the head, strip. -/
def optionName (opt : String) : String :=
  pyStrip ((pySplit ':' ((pySplit '=' opt).headD "")).headD "")

/-- Check (1): algorithm allow-list. -/
def algErrors (pol : PolicyRules) (algorithm : String) : List String :=
  if algorithm ∈ pol.allowedAlgorithms then []
  else ["Algorithm " ++ algorithm ++ " not allowed"]

/-- Check (2): per-algorithm minimum bit length, `min_key_lengths.get(alg, 0)`. -/
def lengthErrors (pol : PolicyRules) (algorithm : String) (bitLength : Nat) : List String :=
  if bitLength < (List.lookup algorithm pol.minKeyLengths).getD 0 then
    ["Key length " ++ toString bitLength ++ " below minimum for " ++ algorithm]
  else []

/-- Check (3): comment format.  `compile` models `re.match` pattern
compilation; `none` stands for `re.error` (invalid pattern), which the source
swallows. -/
def commentErrors (compile : String → Option (String → Bool)) (pol : PolicyRules)
    (comment : Option String) : List String :=
  if optTruthy pol.commentRegex && optTruthy comment then
    match compile (pol.commentRegex.getD "") with
    | some matcher =>
      if matcher (comment.getD "") then []
      else ["Comment does not match required format"]
    | none => []
  else []

/-- Check (4): every option name in the comma-separated option string must be
on the allow-list; value suffixes are stripped by `optionName`. -/
def optionErrors (pol : PolicyRules) (authorizedKeysOptions : Option String) : List String :=
  if optTruthy authorizedKeysOptions then
    ((pySplit ',' (authorizedKeysOptions.getD "")).map pyStrip).filterMap (fun o =>
      if optionName o ∈ pol.allowedOptions then none
      else some ("Option " ++ optionName o ++ " not allowed"))
  else []

/-- Check (5): active-key count versus `max_keys_per_user`, only when a user
id is supplied. -/
def maxKeyErrors (pol : PolicyRules) (keys : List SSHKeyRec) (userId : Option Nat) : List String :=
  match userId with
  | some uid =>
    if pol.maxKeysPerUser ≤ (activeKeysFor keys uid).length then
      ["Maximum keys per user exceeded"]
    else []
  | none => []

/-- `PolicyService.validate_key_against_policy` (policy.py), accumulating its
five checks in source order into one error list. -/
def validate_key_against_policy (compile : String → Option (String → Bool))
    (pol : PolicyRules) (keys : List SSHKeyRec) (algorithm : String) (bitLength : Nat)
    (comment : Option String) (authorizedKeysOptions : Option String)
    (userId : Option Nat) : List String :=
  let errors : List String := []
  let errors := if algorithm ∈ pol.allowedAlgorithms then errors
    else errors ++ ["Algorithm " ++ algorithm ++ " not allowed"]
  let errors := if bitLength < (List.lookup algorithm pol.minKeyLengths).getD 0 then
      errors ++ ["Key length " ++ toString bitLength ++ " below minimum for " ++ algorithm]
    else errors
  let errors := if optTruthy pol.commentRegex && optTruthy comment then
      match compile (pol.commentRegex.getD "") with
      | some matcher =>
        if matcher (comment.getD "") then errors
        else errors ++ ["Comment does not match required format"]
      | none => errors
    else errors
  let errors := if optTruthy authorizedKeysOptions then
      errors ++ ((pySplit ',' (authorizedKeysOptions.getD "")).map pyStrip).filterMap (fun o =>
        if optionName o ∈ pol.allowedOptions then none
        else some ("Option " ++ optionName o ++ " not allowed"))
    else errors
  match userId with
  | some uid =>
    if pol.maxKeysPerUser ≤ (activeKeysFor keys uid).length then
      errors ++ ["Maximum keys per user exceeded"]
    else errors
  | none => errors

theorem validate_eq_segments (compile : String → Option (String → Bool))
    (pol : PolicyRules) (keys : List SSHKeyRec) (algorithm : String) (bitLength : Nat)
    (comment : Option String) (authorizedKeysOptions : Option String)
    (userId : Option Nat) :
    validate_key_against_policy compile pol keys algorithm bitLength comment
        authorizedKeysOptions userId
      = algErrors pol algorithm ++ lengthErrors pol algorithm bitLength
        ++ commentErrors compile pol comment ++ optionErrors pol authorizedKeysOptions
        ++ maxKeyErrors pol keys userId := by
  unfold validate_key_against_policy algErrors lengthErrors commentErrors optionErrors
    maxKeyErrors
  by_cases h1 : algorithm ∈ pol.allowedAlgorithms <;>
  by_cases h2 : bitLength < (List.lookup algorithm pol.minKeyLengths).getD 0 <;>
  by_cases h3 : (optTruthy pol.commentRegex && optTruthy comment) = true <;>
  by_cases h4 : optTruthy authorizedKeysOptions = true <;>
  cases hc : compile (pol.commentRegex.getD "") <;>
  cases userId <;>
  simp [h1, h2, h3, h4, hc]
  all_goals try (split <;> try simp)
  all_goals (split <;> try simp)

/-- C6: `validate_key_against_policy` accumulates all violations without
short-circuiting, in the fixed order algorithm / bit length / comment format
/ option names / max-keys; a key below the per-algorithm minimum is rejected
and one at exactly the minimum carries no bit-length violation; option names
are checked after stripping their value suffix, the option segment is clean
exactly when every name is on the allow-list; the max-keys check runs only
when an identity is supplied. -/
theorem validate_accumulates_in_order (compile : String → Option (String → Bool))
    (pol : PolicyRules) (keys : List SSHKeyRec) (algorithm : String) (bitLength : Nat)
    (comment : Option String) (s : String) (userId : Option Nat) (m : Nat)
    (hm : List.lookup algorithm pol.minKeyLengths = some m) (hs : s ≠ "") :
    (∀ b opts,
      validate_key_against_policy compile pol keys algorithm b comment opts userId
        = algErrors pol algorithm ++ lengthErrors pol algorithm b
          ++ commentErrors compile pol comment ++ optionErrors pol opts
          ++ maxKeyErrors pol keys userId) ∧
    (bitLength < m →
      lengthErrors pol algorithm bitLength
        = ["Key length " ++ toString bitLength ++ " below minimum for " ++ algorithm]) ∧
    (m ≤ bitLength → lengthErrors pol algorithm bitLength = []) ∧
    (optionErrors pol (some s) = [] ↔
      ∀ o ∈ (pySplit ',' s).map pyStrip, optionName o ∈ pol.allowedOptions) ∧
    optionName "from=10.0.0.0/8" = "from" ∧
    optionName " command=echo hi " = "command" ∧
    optionName "no-pty" = "no-pty" ∧
    (∀ ks : List SSHKeyRec, maxKeyErrors pol ks none = []) := by
  refine ⟨?_, ?_, ?_, ?_, by decide, by decide, by decide, fun _ => rfl⟩
  · intro b opts
    exact validate_eq_segments compile pol keys algorithm b comment opts userId
  · intro hlt
    simp [lengthErrors, hm, hlt]
  · intro hge
    simp [lengthErrors, hm, Nat.not_lt.mpr hge]
  · have hts : optTruthy (some s) = true := by
      simp [optTruthy, hs]
    simp only [optionErrors, hts, if_true, Option.getD]
    rw [List.filterMap_eq_nil_iff]
    constructor
    · intro h o ho
      have := h o ho
      by_contra hno
      simp [hno] at this
    · intro h o ho
      simp [h o ho]

theorem validate_accumulates_in_order_witness :
    (∀ b opts,
      validate_key_against_policy (fun _ => none) defaultPolicyRules [] "ssh-rsa" b none
          opts none
        = algErrors defaultPolicyRules "ssh-rsa" ++ lengthErrors defaultPolicyRules "ssh-rsa" b
          ++ commentErrors (fun _ => none) defaultPolicyRules none
          ++ optionErrors defaultPolicyRules opts
          ++ maxKeyErrors defaultPolicyRules [] none) ∧
    (1024 < 2048 →
      lengthErrors defaultPolicyRules "ssh-rsa" 1024
        = ["Key length " ++ toString 1024 ++ " below minimum for " ++ "ssh-rsa"]) ∧
    (2048 ≤ 1024 → lengthErrors defaultPolicyRules "ssh-rsa" 1024 = []) ∧
    (optionErrors defaultPolicyRules (some "no-pty,from=10.0.0.0/8") = [] ↔
      ∀ o ∈ (pySplit ',' "no-pty,from=10.0.0.0/8").map pyStrip,
        optionName o ∈ defaultPolicyRules.allowedOptions) ∧
    optionName "from=10.0.0.0/8" = "from" ∧
    optionName " command=echo hi " = "command" ∧
    optionName "no-pty" = "no-pty" ∧
    (∀ ks : List SSHKeyRec, maxKeyErrors defaultPolicyRules ks none = []) :=
  validate_accumulates_in_order (fun _ => none) defaultPolicyRules [] "ssh-rsa" 1024 none
    "no-pty,from=10.0.0.0/8" none 2048 (by decide) (by decide)

theorem commentErrors_empty_of_bad_regex (compile : String → Option (String → Bool))
    (pol : PolicyRules) (comment : Option String)
    (hrx : compile (pol.commentRegex.getD "") = none) :
    commentErrors compile pol comment = [] := by
  unfold commentErrors
  split
  · rw [hrx]
  · rfl

/-- C10: when the configured comment-format pattern fails to compile
(`re.error`), `validate_key_against_policy` silently skips the comment check
for every comment while still producing the violations of all other checks in
order. -/
theorem invalid_regex_skips_comment_check (compile : String → Option (String → Bool))
    (pol : PolicyRules) (keys : List SSHKeyRec) (algorithm : String) (bitLength : Nat)
    (authorizedKeysOptions : Option String) (userId : Option Nat)
    (hrx : compile (pol.commentRegex.getD "") = none) :
    ∀ comment,
      validate_key_against_policy compile pol keys algorithm bitLength comment
          authorizedKeysOptions userId
        = algErrors pol algorithm ++ lengthErrors pol algorithm bitLength
          ++ optionErrors pol authorizedKeysOptions ++ maxKeyErrors pol keys userId := by
  intro comment
  rw [validate_eq_segments, commentErrors_empty_of_bad_regex compile pol comment hrx]
  simp

/-- The policy used by the C10 witness: the comment pattern `"("` is an
invalid regular expression. -/
def c10pol : PolicyRules :=
  { defaultPolicyRules with commentRegex := some "(" }

theorem invalid_regex_skips_comment_check_witness :
    validate_key_against_policy (fun _ => none) c10pol [] "ssh-dss" 1024
        (some "any comment at all") (some "tunnel") none
      = algErrors c10pol "ssh-dss" ++ lengthErrors c10pol "ssh-dss" 1024
        ++ optionErrors c10pol (some "tunnel") ++ maxKeyErrors c10pol [] none :=
  invalid_regex_skips_comment_check (fun _ => none) c10pol [] "ssh-dss" 1024
    (some "tunnel") none rfl (some "any comment at all")

/-- Row of the `policies` table. -/
structure PolicyRow where
  id : Nat
  name : String
  rules : String
  isActive : Bool
  createdBy : String
deriving DecidableEq

/-- `PolicyService.set_policy` (policy.py): deactivate the first Policy found
with `is_active == True`, then add a new active one; both changes land in the
same commit.  Returns the new store contents and the created row. -/
def set_policy (policies : List PolicyRow) (freshId : Nat) (rules : String)
    (createdBy : String) (name : String) : List PolicyRow × PolicyRow :=
  let deactivated :=
    match policies.find? (fun p => p.isActive) with
    | some cur =>
      policies.map (fun p => if p.id == cur.id then { p with isActive := false } else p)
    | none => policies
  let newPolicy : PolicyRow :=
    { id := freshId, name := name, rules := rules, isActive := true, createdBy := createdBy }
  (deactivated ++ [newPolicy], newPolicy)

/-- Rows currently marked active. -/
def activePolicies (ps : List PolicyRow) : List PolicyRow :=
  ps.filter (fun p => p.isActive)

/-- A corrupted prior store with two active policies. -/
def c5corrupt : List PolicyRow :=
  [{ id := 1, name := "a", rules := "r1", isActive := true, createdBy := "u" },
   { id := 2, name := "b", rules := "r2", isActive := true, createdBy := "u" }]

/-- C5 counterexample: starting from two active policies, `set_policy`
deactivates only the first one it finds, leaving two active rows afterward —
the claimed exactly-one-active-regardless-of-prior-actives property fails. -/
theorem set_policy_two_active_counterexample :
    (activePolicies (set_policy c5corrupt 3 "r3" "admin" "SSH Key Policy").1).length = 2 := by
  decide

theorem eq_of_mem_of_length_le_one {α : Type} {l : List α} {a b : α}
    (h : l.length ≤ 1) (ha : a ∈ l) (hb : b ∈ l) : a = b := by
  match l with
  | [] => cases ha
  | [x] =>
    rw [List.mem_singleton] at ha hb
    rw [ha, hb]
  | x :: y :: xs => simp at h

/-- C5 amended: provided at most one policy was active beforehand (the intended store invariant), `set_policy` leaves exactly one active Policy,
namely the newly created one; deactivation and creation are performed by the
single atomic `set_policy` transition. -/
theorem set_policy_single_active (policies : List PolicyRow) (freshId : Nat)
    (rules createdBy name : String)
    (h : (activePolicies policies).length ≤ 1) :
    activePolicies (set_policy policies freshId rules createdBy name).1
      = [(set_policy policies freshId rules createdBy name).2] := by
  unfold set_policy activePolicies
  cases hf : policies.find? (fun p => p.isActive) with
  | none =>
    have hnone : ∀ p ∈ policies, ¬ (p.isActive = true) := by
      intro p hp
      exact List.find?_eq_none.mp hf p hp
    simp only [List.filter_append]
    rw [List.filter_eq_nil_iff.mpr (by intro p hp; simpa using hnone p hp)]
    rfl
  | some cur =>
    have hcur_mem : cur ∈ policies := List.mem_of_find?_eq_some hf
    have hcur_act : cur.isActive = true := by
      simpa using List.find?_some hf
    have hdeact : ∀ q ∈ policies.map
        (fun p => if p.id == cur.id then { p with isActive := false } else p),
        ¬ (q.isActive = true) := by
      intro q hq
      obtain ⟨p, hp, rfl⟩ := List.mem_map.mp hq
      by_cases hid : (p.id == cur.id) = true
      · simp [hid]
      · simp only [hid, Bool.false_eq_true, if_false]
        intro hact
        have hpmem : p ∈ activePolicies policies := by
          simp [activePolicies, List.mem_filter, hp, hact]
        have hcmem : cur ∈ activePolicies policies := by
          simp [activePolicies, List.mem_filter, hcur_mem, hcur_act]
        have : p = cur := eq_of_mem_of_length_le_one h hpmem hcmem
        rw [this] at hid
        simp at hid
    simp only [List.filter_append]
    rw [List.filter_eq_nil_iff.mpr (by intro q hq; simpa using hdeact q hq)]
    rfl

theorem set_policy_single_active_witness :
    activePolicies (set_policy
        [{ id := 1, name := "a", rules := "r1", isActive := true, createdBy := "u" },
         { id := 2, name := "b", rules := "r2", isActive := false, createdBy := "u" }]
        3 "r3" "admin" "SSH Key Policy").1
      = [(set_policy
        [{ id := 1, name := "a", rules := "r1", isActive := true, createdBy := "u" },
         { id := 2, name := "b", rules := "r2", isActive := false, createdBy := "u" }]
        3 "r3" "admin" "SSH Key Policy").2] :=
  set_policy_single_active _ 3 "r3" "admin" "SSH Key Policy" (by decide)

/-- Status of an `apply_queue` row (check constraint in models.py). -/
inductive QStatus
  | queued
  | running
  | completed
  | failed
  | cancelled
deriving DecidableEq

/-- Row of the `apply_queue` table. -/
structure QueueEntry where
  id : Nat
  bindingId : Nat
  priority : Int
  status : QStatus
  scheduledAt : Nat
  startedAt : Option Nat
  finishedAt : Option Nat
  error : Option String
  retryCount : Nat
  createdAt : Nat
deriving DecidableEq

/-- Worker configuration (`ApplyWorker.__init__`). -/
structure WorkerCfg where
  maxRetries : Nat
  retryDelay : Nat
deriving DecidableEq

/-- Defaults `max_retries=3, retry_delay=60`. -/
def defaultWorkerCfg : WorkerCfg := { maxRetries := 3, retryDelay := 60 }

/-- The status-queued and scheduled_at-up-to-now filter of
`ApplyWorker.process_queue`. -/
def eligible (now : Nat) (e : QueueEntry) : Bool :=
  e.status == QStatus.queued && decide (e.scheduledAt ≤ now)

/-- Strict ordering used by the dequeue `ORDER BY priority DESC,
created_at ASC`: `a` comes strictly before `b`. -/
def precedes (a b : QueueEntry) : Bool :=
  decide (b.priority < a.priority) ||
    (a.priority == b.priority && decide (a.createdAt < b.createdAt))

/-- Fold step keeping the best entry seen so far (list order breaks full
ties, as an SQL `first()` returns one row of the sorted result). -/
def selectStep (acc : Option QueueEntry) (e : QueueEntry) : Option QueueEntry :=
  match acc with
  | none => some e
  | some a => if precedes e a then some e else some a

/-- The dequeue query of `ApplyWorker.process_queue`. -/
def selectNext (now : Nat) (es : List QueueEntry) : Option QueueEntry :=
  (es.filter (eligible now)).foldl selectStep none

/-- Outcome of `process_apply_item` for one entry. -/
inductive ExecResult
  | success
  | failure (msg : String)

/-- The failure branch of `ApplyWorker.process_queue`: bump the retry count,
record the error, then either requeue with linear backoff or fail terminally
once `retry_count >= max_retries`. -/
def handleFailure (cfg : WorkerCfg) (now : Nat) (msg : String) (e : QueueEntry) : QueueEntry :=
  if cfg.maxRetries ≤ e.retryCount + 1 then
    { e with retryCount := e.retryCount + 1, error := some msg, status := QStatus.failed, finishedAt := some now }
  else
    { e with retryCount := e.retryCount + 1, error := some msg, status := QStatus.queued, scheduledAt := now + cfg.retryDelay * (e.retryCount + 1), startedAt := none }

/-- Execution of the selected entry: mark running, run, then complete or
handle the failure. -/
def runItem (cfg : WorkerCfg) (now : Nat) (exec : QueueEntry → ExecResult)
    (e : QueueEntry) : QueueEntry :=
  match exec { e with status := QStatus.running, startedAt := some now } with
  | ExecResult.success =>
    { e with status := QStatus.completed, startedAt := some now, finishedAt := some now }
  | ExecResult.failure msg =>
    handleFailure cfg now msg { e with status := QStatus.running, startedAt := some now }

/-- One tick of `ApplyWorker.process_queue`: select at most one entry and run
it; all other rows are untouched. -/
def process_queue (cfg : WorkerCfg) (now : Nat) (exec : QueueEntry → ExecResult)
    (es : List QueueEntry) : List QueueEntry :=
  match selectNext now es with
  | none => es
  | some sel => es.map (fun e => if e.id == sel.id then runItem cfg now exec e else e)

/-- Maintenance step 3 (`MaintenanceWorker.run_maintenance_tasks`): delete
terminal queue entries whose `finished_at` is older than the retention
window. -/
def cleanup_old_queue_items (now retention : Nat) (es : List QueueEntry) : List QueueEntry :=
  es.filter (fun e =>
    !((e.status == QStatus.completed || e.status == QStatus.failed) &&
      (match e.finishedAt with
       | some t => decide (t + retention < now)
       | none => false)))

/-- Row of the `user_host_accounts` table (a TargetBinding). -/
structure Account where
  id : Nat
  userId : Nat
  status : String
deriving DecidableEq

/-- Non-terminal statuses, the queued-or-running status filter of
`queue_apply_for_user`. -/
def isNonTerminal (e : QueueEntry) : Bool :=
  e.status == QStatus.queued || e.status == QStatus.running

/-- Whether a binding already has a queued or running entry. -/
def hasPending (es : List QueueEntry) (bid : Nat) : Bool :=
  es.any (fun e => e.bindingId == bid && isNonTerminal e)

/-- A freshly enqueued row (model defaults mirror models.py: status queued,
`scheduled_at`/`created_at` now, retry count 0). -/
def newQueueEntry (eid bid : Nat) (priority : Int) (now : Nat) : QueueEntry :=
  { id := eid, bindingId := bid, priority := priority, status := QStatus.queued,
    scheduledAt := now, startedAt := none, finishedAt := none, error := none,
    retryCount := 0, createdAt := now }

/-- Loop body of `queue_apply_for_user`: skip bindings that already have a
pending entry, otherwise append a fresh queued entry and count it. -/
def enqueueStep (priority : Int) (now freshId : Nat) (st : List QueueEntry × Nat)
    (a : Account) : List QueueEntry × Nat :=
  if hasPending st.1 a.id then st
  else (st.1 ++ [newQueueEntry (freshId + st.2) a.id priority now], st.2 + 1)

/-- Selection of the active accounts of one user. -/
def activeAccountsFor (accounts : List Account) (uid : Nat) : List Account :=
  accounts.filter (fun a => a.userId == uid && a.status == "active")

/-- `queue_apply_for_user` (deploy.py): one entry per active binding of the
user unless one is already queued or running; returns the new queue contents
and the number of created entries. -/
def queue_apply_for_user (accounts : List Account) (uid : Nat) (priority : Int)
    (now freshId : Nat) (es : List QueueEntry) : List QueueEntry × Nat :=
  (activeAccountsFor accounts uid).foldl (enqueueStep priority now freshId) (es, 0)

theorem precedes_irrefl (a : QueueEntry) : precedes a a = false := by
  simp [precedes]

theorem precedes_asymm {a b : QueueEntry} (h : precedes a b = true) :
    precedes b a = false := by
  simp only [precedes, Bool.or_eq_true, Bool.and_eq_true, decide_eq_true_eq,
    beq_iff_eq] at h
  rw [← Bool.not_eq_true]
  simp only [precedes, Bool.or_eq_true, Bool.and_eq_true, decide_eq_true_eq,
    beq_iff_eq]
  omega

theorem precedes_trans {a b c : QueueEntry} (hab : precedes a b = true)
    (hbc : precedes b c = true) : precedes a c = true := by
  simp only [precedes, Bool.or_eq_true, Bool.and_eq_true, decide_eq_true_eq,
    beq_iff_eq] at hab hbc ⊢
  omega

theorem precedes_false_of_eq_or_rev {s e : QueueEntry}
    (h : s = e ∨ precedes s e = true) : precedes e s = false := by
  rcases h with rfl | h
  · exact precedes_irrefl s
  · exact precedes_asymm h

theorem selectFold_spec (l : List QueueEntry) : ∀ (acc : Option QueueEntry)
    (s : QueueEntry), l.foldl selectStep acc = some s →
    (s ∈ l ∨ acc = some s) ∧
    (∀ e ∈ l, precedes e s = false) ∧
    (∀ a, acc = some a → s = a ∨ precedes s a = true) := by
  induction l with
  | nil =>
    intro acc s h
    simp only [List.foldl_nil] at h
    refine ⟨Or.inr h, by simp, ?_⟩
    intro a ha
    rw [h] at ha
    exact Or.inl (Option.some_injective _ ha)
  | cons e es ih =>
    intro acc s h
    simp only [List.foldl_cons] at h
    obtain ⟨h1, h2, h3⟩ := ih (selectStep acc e) s h
    cases acc with
    | none =>
      have h3e : s = e ∨ precedes s e = true := h3 e rfl
      refine ⟨?_, ?_, by intro a ha; cases ha⟩
      · left
        rcases h1 with hm | heq
        · exact List.mem_cons_of_mem _ hm
        · rw [(Option.some_injective _ heq).symm]
          exact List.mem_cons_self _ _
      · intro x hx
        rcases List.mem_cons.mp hx with rfl | hxs
        · exact precedes_false_of_eq_or_rev h3e
        · exact h2 x hxs
    | some a =>
      by_cases hpe : precedes e a = true
      · have hsel : selectStep (some a) e = some e := by simp [selectStep, hpe]
        rw [hsel] at h1 h3
        have h3e : s = e ∨ precedes s e = true := h3 e rfl
        refine ⟨?_, ?_, ?_⟩
        · left
          rcases h1 with hm | heq
          · exact List.mem_cons_of_mem _ hm
          · rw [(Option.some_injective _ heq).symm]
            exact List.mem_cons_self _ _
        · intro x hx
          rcases List.mem_cons.mp hx with rfl | hxs
          · exact precedes_false_of_eq_or_rev h3e
          · exact h2 x hxs
        · intro a' ha'
          rw [show a' = a from Option.some_injective _ ha'.symm]
          right
          rcases h3e with rfl | hse
          · exact hpe
          · exact precedes_trans hse hpe
      · have hsel : selectStep (some a) e = some a := by
          simp [selectStep, hpe]
        rw [hsel] at h1 h3
        have h3a : s = a ∨ precedes s a = true := h3 a rfl
        refine ⟨?_, ?_, ?_⟩
        · rcases h1 with hm | heq
          · exact Or.inl (List.mem_cons_of_mem _ hm)
          · exact Or.inr heq
        · intro x hx
          rcases List.mem_cons.mp hx with rfl | hxs
          · rcases h3a with rfl | hsa
            · exact Bool.not_eq_true _ ▸ (by simpa using hpe)
            · by_contra hxs2
              rw [Bool.not_eq_false] at hxs2
              have := precedes_trans hxs2 hsa
              exact hpe this
          · exact h2 x hxs
        · intro a' ha'
          rw [show a' = a from Option.some_injective _ ha'.symm]
          exact h3a

theorem selectNext_spec {now : Nat} {es : List QueueEntry} {s : QueueEntry}
    (h : selectNext now es = some s) :
    eligible now s = true ∧ s ∈ es ∧
    ∀ e ∈ es, eligible now e = true → precedes e s = false := by
  obtain ⟨h1, h2, _⟩ := selectFold_spec (es.filter (eligible now)) none s h
  have hs : s ∈ es.filter (eligible now) := by
    rcases h1 with hm | heq
    · exact hm
    · cases heq
  obtain ⟨hmem, helig⟩ := List.mem_filter.mp hs
  refine ⟨helig, hmem, ?_⟩
  intro e he helig2
  exact h2 e (List.mem_filter.mpr ⟨he, helig2⟩)

/-- Execution oracle for the C8 run: every deployment succeeds. -/
def execSuccess : QueueEntry → ExecResult := fun _ => ExecResult.success

/-- Entry A: priority 0, created first. -/
def entryA : QueueEntry :=
  { id := 1, bindingId := 11, priority := 0, status := QStatus.queued, scheduledAt := 0,
    startedAt := none, finishedAt := none, error := none, retryCount := 0, createdAt := 1 }

/-- Entry B: priority 5, created second. -/
def entryB : QueueEntry :=
  { id := 2, bindingId := 12, priority := 5, status := QStatus.queued, scheduledAt := 0,
    startedAt := none, finishedAt := none, error := none, retryCount := 0, createdAt := 2 }

/-- Entry C: priority 0, created third. -/
def entryC : QueueEntry :=
  { id := 3, bindingId := 13, priority := 0, status := QStatus.queued, scheduledAt := 0,
    startedAt := none, finishedAt := none, error := none, retryCount := 0, createdAt := 3 }

/-- Queue holding A, B, C in creation order. -/
def c8entries : List QueueEntry := [entryA, entryB, entryC]

/-- Queue after the first worker tick. -/
def c8tick1 : List QueueEntry := process_queue defaultWorkerCfg 10 execSuccess c8entries

/-- Queue after the second worker tick. -/
def c8tick2 : List QueueEntry := process_queue defaultWorkerCfg 11 execSuccess c8tick1

/-- Queue after the third worker tick. -/
def c8tick3 : List QueueEntry := process_queue defaultWorkerCfg 12 execSuccess c8tick2

/-- C8: each tick selects one entry — an eligible one (queued,
scheduled in the past) that no other eligible entry beats under priority
descending then creation ascending — and leaves every other row untouched;
for priorities [0,5,0] created in order A,B,C the processing order is
B, then A, then C, and afterwards nothing is selectable. -/
theorem worker_dequeue_order :
    (∀ now es s, selectNext now es = some s →
      eligible now s = true ∧ s ∈ es ∧
      ∀ e ∈ es, eligible now e = true → precedes e s = false) ∧
    (∀ cfg now exec es s, selectNext now es = some s →
      ∀ e ∈ es, (e.id == s.id) = false → e ∈ process_queue cfg now exec es) ∧
    selectNext 10 c8entries = some entryB ∧
    selectNext 11 c8tick1 = some entryA ∧
    selectNext 12 c8tick2 = some entryC ∧
    selectNext 13 c8tick3 = none := by
  refine ⟨?_, ?_, by decide, by decide, by decide, by decide⟩
  · intro now es s h
    exact selectNext_spec h
  · intro cfg now exec es s h e he hid
    unfold process_queue
    rw [h]
    have hfix : (fun x => if x.id == s.id then runItem cfg now exec x else x) e = e := by
      simp [hid]
    have hm := List.mem_map_of_mem
      (fun x => if x.id == s.id then runItem cfg now exec x else x) he
    rw [hfix] at hm
    exact hm

theorem worker_dequeue_order_witness :
    eligible 10 entryB = true ∧ entryB ∈ c8entries ∧
    (∀ e ∈ c8entries, eligible 10 e = true → precedes e entryB = false) :=
  worker_dequeue_order.1 10 c8entries entryB (by decide)

theorem eligible_status {now : Nat} {e : QueueEntry} (h : eligible now e = true) :
    e.status = QStatus.queued := by
  simp only [eligible, Bool.and_eq_true, beq_iff_eq, decide_eq_true_eq] at h
  exact h.1

theorem enqueue_fold_extends (priority : Int) (now freshId : Nat) :
    ∀ (acts : List Account) (st : List QueueEntry × Nat),
    ∃ tail, (acts.foldl (enqueueStep priority now freshId) st).1 = st.1 ++ tail := by
  intro acts
  induction acts with
  | nil =>
    intro st
    exact ⟨[], by simp⟩
  | cons a acts ih =>
    intro st
    simp only [List.foldl_cons]
    by_cases hp : hasPending st.1 a.id
    · have hstep : enqueueStep priority now freshId st a = st := by
        simp [enqueueStep, hp]
      rw [hstep]
      exact ih st
    · have hstep : enqueueStep priority now freshId st a
          = (st.1 ++ [newQueueEntry (freshId + st.2) a.id priority now], st.2 + 1) := by
        simp [enqueueStep, hp]
      rw [hstep]
      obtain ⟨tail, ht⟩ :=
        ih (st.1 ++ [newQueueEntry (freshId + st.2) a.id priority now], st.2 + 1)
      exact ⟨newQueueEntry (freshId + st.2) a.id priority now :: tail,
        by rw [ht, List.append_assoc]; rfl⟩

/-- C1: when execution of a running entry fails, the worker bumps its retry
count and writes the error text; below the maximum (default 3) the entry is
requeued with `scheduledAt = now + baseDelay * newRetryCount`, which is
strictly later than the previous `scheduledAt`; at the maximum the entry
becomes failed with `finishedAt` set; and no modeled operation (worker tick,
enqueue, maintenance cleanup) ever moves a failed entry back to queued. -/
theorem failure_retry_and_terminal_failed (cfg : WorkerCfg) (now : Nat)
    (msg : String) (e : QueueEntry) (hdelay : 0 < cfg.retryDelay) :
    ((handleFailure cfg now msg e).retryCount = e.retryCount + 1 ∧
     (handleFailure cfg now msg e).error = some msg) ∧
    (e.retryCount + 1 < cfg.maxRetries →
      (handleFailure cfg now msg e).status = QStatus.queued ∧
      (handleFailure cfg now msg e).scheduledAt
        = now + cfg.retryDelay * (e.retryCount + 1) ∧
      (e.scheduledAt ≤ now →
        e.scheduledAt < (handleFailure cfg now msg e).scheduledAt)) ∧
    (cfg.maxRetries ≤ e.retryCount + 1 →
      (handleFailure cfg now msg e).status = QStatus.failed ∧
      (handleFailure cfg now msg e).finishedAt = some now) ∧
    defaultWorkerCfg.maxRetries = 3 ∧
    (∀ exec es, (es.map QueueEntry.id).Nodup →
      ∀ f ∈ es, f.status = QStatus.failed → f ∈ process_queue cfg now exec es) ∧
    (∀ accounts uid priority freshId es, ∀ f ∈ es,
      f ∈ (queue_apply_for_user accounts uid priority now freshId es).1) ∧
    (∀ retention es, ∀ f ∈ cleanup_old_queue_items now retention es, f ∈ es) ∧
    (∀ exec es sel m2, selectNext now es = some sel →
      exec { sel with status := QStatus.running, startedAt := some now }
        = ExecResult.failure m2 →
      handleFailure cfg now m2 { sel with status := QStatus.running, startedAt := some now }
        ∈ process_queue cfg now exec es) := by
  refine ⟨⟨?_, ?_⟩, ?_, ?_, rfl, ?_, ?_, ?_, ?_⟩
  · unfold handleFailure
    split <;> rfl
  · unfold handleFailure
    split <;> rfl
  · intro hlt
    have hcond : ¬ (cfg.maxRetries ≤ e.retryCount + 1) := Nat.not_le.mpr hlt
    unfold handleFailure
    rw [if_neg hcond]
    refine ⟨rfl, rfl, ?_⟩
    intro hsched
    have hpos : 0 < cfg.retryDelay * (e.retryCount + 1) :=
      Nat.mul_pos hdelay (Nat.succ_pos _)
    show e.scheduledAt < now + cfg.retryDelay * (e.retryCount + 1)
    omega
  · intro hge
    unfold handleFailure
    rw [if_pos hge]
    exact ⟨rfl, rfl⟩
  · intro exec es hnodup f hf hfailed
    unfold process_queue
    cases hsel : selectNext now es with
    | none => exact hf
    | some sel =>
      obtain ⟨helig, hselmem, _⟩ := selectNext_spec hsel
      have hne : f.id ≠ sel.id := by
        intro hid
        have : f = sel := List.inj_on_of_nodup_map hnodup hf hselmem hid
        rw [this] at hfailed
        rw [eligible_status helig] at hfailed
        cases hfailed
      have hfix : (fun x => if x.id == sel.id then runItem cfg now exec x else x) f = f := by
        simp [hne]
      have hm := List.mem_map_of_mem
        (fun x => if x.id == sel.id then runItem cfg now exec x else x) hf
      rw [hfix] at hm
      exact hm
  · intro accounts uid priority freshId es f hf
    obtain ⟨tail, ht⟩ := enqueue_fold_extends priority now freshId
      (activeAccountsFor accounts uid) (es, 0)
    unfold queue_apply_for_user
    rw [ht]
    exact List.mem_append_left _ hf
  · intro retention es f hf
    exact (List.mem_filter.mp hf).1
  · intro exec es sel m2 hsel hexec
    unfold process_queue
    rw [hsel]
    obtain ⟨_, hselmem, _⟩ := selectNext_spec hsel
    have hfix : (fun x => if x.id == sel.id then runItem cfg now exec x else x) sel
        = handleFailure cfg now m2 { sel with status := QStatus.running, startedAt := some now } := by
      simp only [beq_self_eq_true, if_true]
      unfold runItem
      rw [hexec]
    have hm := List.mem_map_of_mem
      (fun x => if x.id == sel.id then runItem cfg now exec x else x) hselmem
    rw [hfix] at hm
    exact hm

/-- Concrete running entry used by the C1 witness. -/
def c1entry : QueueEntry :=
  { id := 9, bindingId := 21, priority := 0, status := QStatus.running, scheduledAt := 50,
    startedAt := some 100, finishedAt := none, error := none, retryCount := 0, createdAt := 40 }

theorem failure_retry_and_terminal_failed_witness :
    ((handleFailure defaultWorkerCfg 100 "boom" c1entry).retryCount = c1entry.retryCount + 1 ∧
     (handleFailure defaultWorkerCfg 100 "boom" c1entry).error = some "boom") ∧
    (c1entry.retryCount + 1 < defaultWorkerCfg.maxRetries →
      (handleFailure defaultWorkerCfg 100 "boom" c1entry).status = QStatus.queued ∧
      (handleFailure defaultWorkerCfg 100 "boom" c1entry).scheduledAt
        = 100 + defaultWorkerCfg.retryDelay * (c1entry.retryCount + 1) ∧
      (c1entry.scheduledAt ≤ 100 →
        c1entry.scheduledAt < (handleFailure defaultWorkerCfg 100 "boom" c1entry).scheduledAt)) ∧
    (defaultWorkerCfg.maxRetries ≤ c1entry.retryCount + 1 →
      (handleFailure defaultWorkerCfg 100 "boom" c1entry).status = QStatus.failed ∧
      (handleFailure defaultWorkerCfg 100 "boom" c1entry).finishedAt = some 100) ∧
    defaultWorkerCfg.maxRetries = 3 ∧
    (∀ exec es, (es.map QueueEntry.id).Nodup →
      ∀ f ∈ es, f.status = QStatus.failed →
        f ∈ process_queue defaultWorkerCfg 100 exec es) ∧
    (∀ accounts uid priority freshId es, ∀ f ∈ es,
      f ∈ (queue_apply_for_user accounts uid priority 100 freshId es).1) ∧
    (∀ retention es, ∀ f ∈ cleanup_old_queue_items 100 retention es, f ∈ es) ∧
    (∀ exec es sel m2, selectNext 100 es = some sel →
      exec { sel with status := QStatus.running, startedAt := some 100 }
        = ExecResult.failure m2 →
      handleFailure defaultWorkerCfg 100 m2
          { sel with status := QStatus.running, startedAt := some 100 }
        ∈ process_queue defaultWorkerCfg 100 exec es) :=
  failure_retry_and_terminal_failed defaultWorkerCfg 100 "boom" c1entry (by decide)

/-- Number of queued-or-running entries for one binding. -/
def pendingCount (es : List QueueEntry) (bid : Nat) : Nat :=
  (es.filter (fun e => e.bindingId == bid && isNonTerminal e)).length

/-- Number of queued-or-running entries across a set of bindings. -/
def pendingForBindings (es : List QueueEntry) (bids : List Nat) : Nat :=
  (es.filter (fun e => bids.contains e.bindingId && isNonTerminal e)).length

theorem hasPending_false_iff {es : List QueueEntry} {bid : Nat} :
    hasPending es bid = false ↔ pendingCount es bid = 0 := by
  unfold hasPending pendingCount
  rw [List.length_eq_zero, List.filter_eq_nil_iff, List.any_eq_false]

theorem hasPending_append (es1 es2 : List QueueEntry) (bid : Nat) :
    hasPending (es1 ++ es2) bid = (hasPending es1 bid || hasPending es2 bid) := by
  simp [hasPending, List.any_append]

theorem pendingCount_append (es1 es2 : List QueueEntry) (bid : Nat) :
    pendingCount (es1 ++ es2) bid = pendingCount es1 bid + pendingCount es2 bid := by
  simp [pendingCount, List.filter_append]

theorem hasPending_single_new (eid bid bid' : Nat) (p : Int) (now : Nat) :
    hasPending [newQueueEntry eid bid p now] bid' = (bid == bid') := by
  simp [hasPending, newQueueEntry, isNonTerminal]

theorem pendingCount_single_new (eid bid bid' : Nat) (p : Int) (now : Nat) :
    pendingCount [newQueueEntry eid bid p now] bid' = if bid = bid' then 1 else 0 := by
  by_cases h : bid = bid' <;>
    simp [pendingCount, newQueueEntry, isNonTerminal, List.filter_cons, h]

theorem enqueue_fold_count (priority : Int) (now freshId : Nat) :
    ∀ (acts : List Account) (E : List QueueEntry) (c : Nat),
    (acts.map Account.id).Nodup →
    (acts.foldl (enqueueStep priority now freshId) (E, c)).2
      = c + (acts.filter (fun a => !hasPending E a.id)).length := by
  intro acts
  induction acts with
  | nil =>
    intro E c _
    simp
  | cons a acts ih =>
    intro E c hnd
    rw [List.map_cons, List.nodup_cons] at hnd
    obtain ⟨hnotin, hnd'⟩ := hnd
    simp only [List.foldl_cons]
    by_cases hp : hasPending E a.id = true
    · rw [show enqueueStep priority now freshId (E, c) a = (E, c) by
        simp [enqueueStep, hp]]
      rw [ih E c hnd', List.filter_cons]
      simp [hp]
    · rw [show enqueueStep priority now freshId (E, c) a
          = (E ++ [newQueueEntry (freshId + c) a.id priority now], c + 1) by
        simp [enqueueStep, hp]]
      rw [ih _ _ hnd']
      have hcong : acts.filter
          (fun b => !hasPending (E ++ [newQueueEntry (freshId + c) a.id priority now]) b.id)
          = acts.filter (fun b => !hasPending E b.id) := by
        apply List.filter_congr
        intro b hb
        have hne : (a.id == b.id) = false := by
          simp only [beq_eq_false_iff_ne, ne_eq]
          intro he
          exact hnotin (he ▸ List.mem_map_of_mem Account.id hb)
        rw [hasPending_append, hasPending_single_new, hne, Bool.or_false]
      rw [hcong, List.filter_cons]
      simp only [hp, Bool.not_false, if_true, List.length_cons]
      omega

theorem enqueue_fold_hasPending (priority : Int) (now freshId : Nat) :
    ∀ (acts : List Account) (st : List QueueEntry × Nat),
    ∀ a ∈ acts,
      hasPending ((acts.foldl (enqueueStep priority now freshId) st).1) a.id = true := by
  intro acts
  induction acts with
  | nil =>
    intro st a ha
    cases ha
  | cons b acts ih =>
    intro st a ha
    simp only [List.foldl_cons]
    rcases List.mem_cons.mp ha with rfl | hmem
    · have hstep : hasPending ((enqueueStep priority now freshId st a).1) a.id = true := by
        unfold enqueueStep
        by_cases hp : hasPending st.1 a.id = true
        · simp [hp]
        · simp [hp, hasPending_append, hasPending_single_new]
      obtain ⟨tail, ht⟩ := enqueue_fold_extends priority now freshId acts
        (enqueueStep priority now freshId st a)
      rw [ht, hasPending_append, hstep, Bool.true_or]
    · exact ih (enqueueStep priority now freshId st b) a hmem

theorem enqueue_fold_invariant (priority : Int) (now freshId : Nat) :
    ∀ (acts : List Account) (st : List QueueEntry × Nat),
    (∀ bid, pendingCount st.1 bid ≤ 1) →
    ∀ bid, pendingCount ((acts.foldl (enqueueStep priority now freshId) st).1) bid ≤ 1 := by
  intro acts
  induction acts with
  | nil =>
    intro st h bid
    exact h bid
  | cons a acts ih =>
    intro st h bid
    simp only [List.foldl_cons]
    apply ih
    intro bid'
    unfold enqueueStep
    by_cases hp : hasPending st.1 a.id = true
    · simpa [hp] using h bid'
    · have h0 : pendingCount st.1 a.id = 0 :=
        hasPending_false_iff.mp (Bool.not_eq_true _ ▸ eq_false_of_ne_true hp)
      rw [if_neg hp]
      rw [pendingCount_append, pendingCount_single_new]
      by_cases hb : a.id = bid'
      · rw [if_pos hb, ← hb, h0]
      · rw [if_neg hb]
        simpa using h bid'

theorem enqueue_fold_noop (priority : Int) (now freshId : Nat) :
    ∀ (acts : List Account) (E : List QueueEntry) (c : Nat),
    (∀ a ∈ acts, hasPending E a.id = true) →
    acts.foldl (enqueueStep priority now freshId) (E, c) = (E, c) := by
  intro acts
  induction acts with
  | nil =>
    intro E c _
    rfl
  | cons a acts ih =>
    intro E c hall
    simp only [List.foldl_cons]
    rw [show enqueueStep priority now freshId (E, c) a = (E, c) by
      simp [enqueueStep, hall a (List.mem_cons_self a acts)]]
    exact ih E c (fun b hb => hall b (List.mem_cons_of_mem a hb))

theorem length_filter_or_le {α : Type} (p q : α → Bool) (l : List α) :
    (l.filter (fun x => p x || q x)).length
      ≤ (l.filter p).length + (l.filter q).length := by
  induction l with
  | nil => simp
  | cons x xs ih =>
    by_cases hp : p x = true <;> by_cases hq : q x = true <;>
      simp [List.filter_cons, hp, hq] <;> omega

theorem pendingForBindings_le (es : List QueueEntry)
    (h : ∀ bid, pendingCount es bid ≤ 1) :
    ∀ bids : List Nat, pendingForBindings es bids ≤ bids.length := by
  intro bids
  induction bids with
  | nil =>
    have hz : pendingForBindings es [] = 0 := by
      rw [pendingForBindings, List.length_eq_zero, List.filter_eq_nil_iff]
      intro e _
      simp
    simp [hz]
  | cons b bs ih =>
    unfold pendingForBindings
    have hcong : es.filter (fun e => (b :: bs).contains e.bindingId && isNonTerminal e)
        = es.filter (fun e => ((e.bindingId == b) && isNonTerminal e)
            || (bs.contains e.bindingId && isNonTerminal e)) := by
      apply List.filter_congr
      intro e _
      rw [List.contains_cons]
      cases hnt : isNonTerminal e <;> cases hcb : (e.bindingId == b) <;>
        cases hcc : bs.contains e.bindingId <;> simp [hnt, hcb, hcc]
    rw [hcong]
    calc (es.filter (fun e => ((e.bindingId == b) && isNonTerminal e)
            || (bs.contains e.bindingId && isNonTerminal e))).length
        ≤ (es.filter (fun e => (e.bindingId == b) && isNonTerminal e)).length
          + (es.filter (fun e => bs.contains e.bindingId && isNonTerminal e)).length :=
          length_filter_or_le _ _ es
      _ ≤ 1 + bs.length := Nat.add_le_add (h b) ih
      _ = (b :: bs).length := by simp [Nat.add_comm]

/-- C2: `queue_apply_for_user` creates exactly one new entry per active
binding that lacks a queued-or-running entry (returning that count), leaves
every active binding with a pending entry, preserves the at-most-one
queued-or-running-entry-per-binding invariant, is a no-op when called a
second time with no intervening completion, and leaves at most B non-terminal
entries across the B active bindings of the identity. -/
theorem enqueue_idempotent_per_binding (accounts : List Account) (uid : Nat)
    (p1 p2 : Int) (now1 now2 fid1 fid2 : Nat) (es : List QueueEntry)
    (hnodup : ((activeAccountsFor accounts uid).map Account.id).Nodup)
    (hinv : ∀ bid, pendingCount es bid ≤ 1) :
    let post := queue_apply_for_user accounts uid p1 now1 fid1 es
    (post.2 = ((activeAccountsFor accounts uid).filter
        (fun a => !hasPending es a.id)).length) ∧
    (∀ a ∈ activeAccountsFor accounts uid, hasPending post.1 a.id = true) ∧
    (∀ bid, pendingCount post.1 bid ≤ 1) ∧
    queue_apply_for_user accounts uid p2 now2 fid2 post.1 = (post.1, 0) ∧
    pendingForBindings post.1 ((activeAccountsFor accounts uid).map Account.id)
      ≤ (activeAccountsFor accounts uid).length := by
  intro post
  have hcount := enqueue_fold_count p1 now1 fid1 (activeAccountsFor accounts uid) es 0 hnodup
  have hpend := fun a ha => enqueue_fold_hasPending p1 now1 fid1
    (activeAccountsFor accounts uid) (es, 0) a ha
  have hpres := enqueue_fold_invariant p1 now1 fid1 (activeAccountsFor accounts uid)
    (es, 0) hinv
  refine ⟨by simpa using hcount, hpend, hpres, ?_, ?_⟩
  · exact enqueue_fold_noop p2 now2 fid2 (activeAccountsFor accounts uid) post.1 0 hpend
  · have := pendingForBindings_le post.1 hpres
      ((activeAccountsFor accounts uid).map Account.id)
    simpa using this

/-- Concrete binding table for the C2 witness: user 7 has two active bindings
and one disabled one; binding 31 already has a running entry. -/
def c2accounts : List Account :=
  [{ id := 31, userId := 7, status := "active" },
   { id := 32, userId := 7, status := "active" },
   { id := 33, userId := 7, status := "disabled" },
   { id := 34, userId := 8, status := "active" }]

/-- Pre-existing queue for the C2 witness. -/
def c2entries : List QueueEntry :=
  [{ id := 50, bindingId := 31, priority := 0, status := QStatus.running, scheduledAt := 0,
     startedAt := some 1, finishedAt := none, error := none, retryCount := 0, createdAt := 0 },
   { id := 51, bindingId := 32, priority := 0, status := QStatus.completed, scheduledAt := 0,
     startedAt := some 1, finishedAt := some 2, error := none, retryCount := 0, createdAt := 0 }]

theorem enqueue_idempotent_per_binding_witness :
    let post := queue_apply_for_user c2accounts 7 0 100 60 c2entries
    (post.2 = ((activeAccountsFor c2accounts 7).filter
        (fun a => !hasPending c2entries a.id)).length) ∧
    (∀ a ∈ activeAccountsFor c2accounts 7, hasPending post.1 a.id = true) ∧
    (∀ bid, pendingCount post.1 bid ≤ 1) ∧
    queue_apply_for_user c2accounts 7 1 200 70 post.1 = (post.1, 0) ∧
    pendingForBindings post.1 ((activeAccountsFor c2accounts 7).map Account.id)
      ≤ (activeAccountsFor c2accounts 7).length :=
  enqueue_idempotent_per_binding c2accounts 7 0 1 100 200 60 70 c2entries
    (by decide)
    (by
      intro bid
      by_cases h : (31 : Nat) = bid <;>
        simp [pendingCount, c2entries, isNonTerminal, List.filter_cons, h])

/-- Row of the `deployments` table (fields touched by
`apply_to_host_account`). -/
structure DeploymentRec where
  id : Nat
  status : String
  checksum : String
  keyCount : Nat
  startedAt : Nat
  finishedAt : Option Nat
  error : Option String
deriving DecidableEq

/-- Failure oracle for one remote apply: which stage of
`apply_to_host_account` raises, and with what message.  `connectErr` covers
client setup and `client.connect`; `dirErr` the sftp open and directory
stat/mkdir; `writeErr` the temp-file write and chown/chmod/mv; `finalizeErr`
the success-finalizing commit. -/
structure RemoteEnv where
  connectErr : Option String
  dirErr : Option String
  writeErr : Option String
  finalizeErr : Option String
deriving DecidableEq

/-- Observable outcome of `apply_to_host_account`: resulting deployment
table, key table, whether the SSH session ended closed, and the returned
`(success, error)` pair. -/
structure ApplyOutcome where
  deployments : List DeploymentRec
  keys : List SSHKeyRec
  sessionClosed : Bool
  ok : Bool
  errMsg : Option String
deriving DecidableEq

/-- `apply_to_host_account` (deploy.py).  The Deployment row is created only
after `client.connect` succeeds; when connect itself raises, the `except`
block reference to the unbound `deployment` variable raises `NameError`,
which the inner bare `except` swallows, so no Deployment row is written; the
client is still closed and `(False, str(e))` returned.  Errors after row
creation finalize the row to `failed`; full success finalizes it to
`success` and stamps `last_applied_at` on every active key of the user. -/
def apply_to_host_account (env : RemoteEnv) (now freshId : Nat)
    (deployments : List DeploymentRec) (keys : List SSHKeyRec) (uid : Nat)
    (checksum : String) (keyCount : Nat) : ApplyOutcome :=
  match env.connectErr with
  | some msg =>
    { deployments := deployments, keys := keys, sessionClosed := true,
      ok := false, errMsg := some msg }
  | none =>
    let d : DeploymentRec :=
      { id := freshId, status := "running", checksum := checksum, keyCount := keyCount,
        startedAt := now, finishedAt := none, error := none }
    match env.dirErr, env.writeErr, env.finalizeErr with
    | some msg, _, _ =>
      { deployments := deployments
          ++ [{ d with status := "failed", error := some msg, finishedAt := some now }],
        keys := keys, sessionClosed := true, ok := false, errMsg := some msg }
    | none, some msg, _ =>
      { deployments := deployments
          ++ [{ d with status := "failed", error := some msg, finishedAt := some now }],
        keys := keys, sessionClosed := true, ok := false, errMsg := some msg }
    | none, none, some msg =>
      { deployments := deployments
          ++ [{ d with status := "failed", error := some msg, finishedAt := some now }],
        keys := keys, sessionClosed := true, ok := false, errMsg := some msg }
    | none, none, none =>
      { deployments := deployments
          ++ [{ d with status := "success", finishedAt := some now }],
        keys := keys.map (fun k =>
          if k.userId == uid && k.status == "active" then
            { k with lastAppliedAt := some now }
          else k),
        sessionClosed := true, ok := true, errMsg := none }

/-- C4 counterexample: when the exception happens during connect, no
Deployment row exists at all — in particular none is created with status
running before the write and none is marked failed — while the call still
returns failure; this falsifies the claim that every deployment attempt
creates a running Deployment row and that a connect exception marks that row
failed. -/
theorem apply_connect_failure_counterexample :
    let out := apply_to_host_account
      { connectErr := some "connection timed out", dirErr := none,
        writeErr := none, finalizeErr := none } 100 1 [] [] 7 "c0" 0
    out.deployments = [] ∧
    (¬ ∃ d ∈ out.deployments, d.status = "failed") ∧
    out.ok = false ∧ out.errMsg = some "connection timed out" ∧
    out.sessionClosed = true := by
  decide

/-- Deployment row created after a successful connect, before the write. -/
def c4runningRec (freshId now : Nat) (checksum : String) (keyCount : Nat) : DeploymentRec :=
  { id := freshId, status := "running", checksum := checksum, keyCount := keyCount,
    startedAt := now, finishedAt := none, error := none }

/-- C4 amended: the Deployment row (status running) is created after a
successful connect and before the remote write; an exception during
directory setup, write, or finalize is caught, the row is finalized to
failed with the error text and finish time, the session is closed and
`(failure, message)` is returned; on success the row is finalized to
success and `lastAppliedAt` is stamped on every active key of the identity;
an exception during connect is also caught and returns failure with the
session closed, but no Deployment row is created or marked failed. -/
theorem apply_records_and_catches (env : RemoteEnv) (now freshId : Nat)
    (deployments : List DeploymentRec) (keys : List SSHKeyRec) (uid : Nat)
    (checksum : String) (keyCount : Nat) :
    (∀ msg, env.connectErr = some msg →
      apply_to_host_account env now freshId deployments keys uid checksum keyCount
        = { deployments := deployments, keys := keys, sessionClosed := true,
            ok := false, errMsg := some msg }) ∧
    (∀ msg, env.connectErr = none →
      (env.dirErr = some msg ∨ (env.dirErr = none ∧ env.writeErr = some msg) ∨
        (env.dirErr = none ∧ env.writeErr = none ∧ env.finalizeErr = some msg)) →
      apply_to_host_account env now freshId deployments keys uid checksum keyCount
        = { deployments := deployments
              ++ [{ c4runningRec freshId now checksum keyCount with
                    status := "failed", error := some msg, finishedAt := some now }],
            keys := keys, sessionClosed := true, ok := false, errMsg := some msg }) ∧
    (env.connectErr = none → env.dirErr = none → env.writeErr = none →
      env.finalizeErr = none →
      apply_to_host_account env now freshId deployments keys uid checksum keyCount
        = { deployments := deployments
              ++ [{ c4runningRec freshId now checksum keyCount with
                    status := "success", finishedAt := some now }],
            keys := keys.map (fun k =>
              if k.userId == uid && k.status == "active" then
                { k with lastAppliedAt := some now }
              else k),
            sessionClosed := true, ok := true, errMsg := none } ∧
      ∀ k ∈ keys, (k.userId == uid && k.status == "active") = true →
        { k with lastAppliedAt := some now }
          ∈ (apply_to_host_account env now freshId deployments keys uid checksum
              keyCount).keys) := by
  refine ⟨?_, ?_, ?_⟩
  · intro msg hc
    unfold apply_to_host_account
    rw [hc]
  · intro msg hc hcase
    unfold apply_to_host_account c4runningRec
    rw [hc]
    rcases hcase with hd | ⟨hd, hw⟩ | ⟨hd, hw, hf⟩
    · rw [hd]
    · rw [hd, hw]
    · rw [hd, hw, hf]
  · intro hc hd hw hf
    have hout : apply_to_host_account env now freshId deployments keys uid checksum keyCount
        = { deployments := deployments
              ++ [{ c4runningRec freshId now checksum keyCount with
                    status := "success", finishedAt := some now }],
            keys := keys.map (fun k =>
              if k.userId == uid && k.status == "active" then
                { k with lastAppliedAt := some now }
              else k),
            sessionClosed := true, ok := true, errMsg := none } := by
      unfold apply_to_host_account c4runningRec
      rw [hc, hd, hw, hf]
    refine ⟨hout, ?_⟩
    intro k hk hcond
    rw [hout]
    have hm := List.mem_map_of_mem (fun k =>
      if k.userId == uid && k.status == "active" then
        { k with lastAppliedAt := some now }
      else k) hk
    simp only [hcond, if_true] at hm
    exact hm

theorem apply_records_and_catches_witness :
    apply_to_host_account
        { connectErr := none, dirErr := none, writeErr := some "sftp write failed",
          finalizeErr := none } 100 1 [] c3keys 7 "c0" 2
      = { deployments := []
            ++ [{ c4runningRec 1 100 "c0" 2 with
                  status := "failed", error := some "sftp write failed",
                  finishedAt := some 100 }],
          keys := c3keys, sessionClosed := true, ok := false,
          errMsg := some "sftp write failed" } :=
  (apply_records_and_catches
      { connectErr := none, dirErr := none, writeErr := some "sftp write failed",
        finalizeErr := none } 100 1 [] c3keys 7 "c0" 2).2.1
    "sftp write failed" rfl (Or.inr (Or.inl ⟨rfl, rfl⟩))

/-- `SecurityService.RATE_LIMITS` (per-hour quotas). -/
def RATE_LIMITS : List (String × Nat) :=
  [("import", 10), ("generate", 5), ("apply", 20), ("revoke", 10), ("download", 3)]

/-- `SecurityService.LOCKOUT_DURATIONS` (minutes). -/
def LOCKOUT_DURATIONS : List (String × Nat) :=
  [("rate_limit", 60), ("failed_pickup", 30), ("suspicious", 240)]

/-- Row of the `rate_limits` table; times are minutes. -/
structure RateLimitRecord where
  userId : Nat
  operationType : String
  count : Nat
  windowStart : Nat
  createdAt : Nat
deriving DecidableEq

/-- Row of the `security_lockouts` table; times are minutes. -/
structure SecurityLockout where
  userId : Nat
  lockoutType : String
  lockedUntil : Nat
  reason : String
  attemptCount : Nat
  createdAt : Nat
  isActive : Bool
deriving DecidableEq

/-- Security bookkeeping state. -/
structure SecState where
  rateLimits : List RateLimitRecord
  lockouts : List SecurityLockout
deriving DecidableEq

/-- The `func.sum(RateLimitRecord.count)` over records of this user and
operation whose window start is within the trailing hour. -/
def rateLimitSum (rs : List RateLimitRecord) (uid : Nat) (op : String)
    (cutoff : Nat) : Nat :=
  ((rs.filter (fun r => r.userId == uid && r.operationType == op
      && decide (cutoff ≤ r.windowStart))).map RateLimitRecord.count).sum

/-- The `_create_lockout` existing-lockout filter: same user, same type,
still flagged active. -/
def lockoutMatches (l : SecurityLockout) (uid : Nat) (lt : String) : Bool :=
  l.userId == uid && l.lockoutType == lt && l.isActive

/-- Whether an active lockout of this type exists for the user. -/
def hasActiveLockout (ls : List SecurityLockout) (uid : Nat) (lt : String) : Bool :=
  ls.any (fun l => lockoutMatches l uid lt)

/-- Update the first matching active lockout (extend `locked_until`, bump the
attempt counter, replace the reason); `none` when there is none. -/
def extendFirstActiveLockout (uid : Nat) (lt : String) (lockedU : Nat)
    (reason : String) : List SecurityLockout → Option (List SecurityLockout)
  | [] => none
  | l :: ls =>
    if lockoutMatches l uid lt then
      some ({ l with lockedUntil := lockedU, attemptCount := l.attemptCount + 1, reason := reason } :: ls)
    else
      match extendFirstActiveLockout uid lt lockedU reason ls with
      | some ls2 => some (l :: ls2)
      | none => none

/-- `SecurityService._create_lockout` (security.py): lockout until
`now + LOCKOUT_DURATIONS[type]` (default 60 minutes); an existing active
lockout of the same type is extended instead of duplicated. -/
def createLockout (now : Nat) (st : SecState) (uid : Nat) (lt : String)
    (reason : String) : SecState :=
  match extendFirstActiveLockout uid lt
      (now + (List.lookup lt LOCKOUT_DURATIONS).getD 60) reason st.lockouts with
  | some ls => { st with lockouts := ls }
  | none =>
    { st with lockouts := st.lockouts ++
        [{ userId := uid, lockoutType := lt,
           lockedUntil := now + (List.lookup lt LOCKOUT_DURATIONS).getD 60,
           reason := reason, attemptCount := 1, createdAt := now, isActive := true }] }

/-- `SecurityService.check_rate_limit` (security.py): returns
`(is_allowed, new state)`. -/
def check_rate_limit (now : Nat) (st : SecState) (uid : Nat) (op : String) :
    Bool × SecState :=
  match List.lookup op RATE_LIMITS with
  | none => (true, st)
  | some limit =>
    if limit ≤ rateLimitSum st.rateLimits uid op (now - 60) then
      (false, createLockout now st uid "rate_limit" ("Rate limit exceeded for " ++ op))
    else (true, st)

/-- Increment the first rate record for this hour bucket; `none` when absent. -/
def bumpFirstRateRecord (uid : Nat) (op : String) (ws : Nat) :
    List RateLimitRecord → Option (List RateLimitRecord)
  | [] => none
  | r :: rs =>
    if r.userId == uid && r.operationType == op && r.windowStart == ws then
      some ({ r with count := r.count + 1 } :: rs)
    else
      match bumpFirstRateRecord uid op ws rs with
      | some rs2 => some (r :: rs2)
      | none => none

/-- `SecurityService.record_operation` (security.py): counters are keyed by
the calendar-hour bucket `now.replace(minute=0, ...)`. -/
def record_operation (now : Nat) (st : SecState) (uid : Nat) (op : String) : SecState :=
  let ws := now / 60 * 60
  match bumpFirstRateRecord uid op ws st.rateLimits with
  | some rs => { st with rateLimits := rs }
  | none =>
    { st with rateLimits := st.rateLimits ++
        [{ userId := uid, operationType := op, count := 1, windowStart := ws,
           createdAt := now }] }

theorem extendFirst_eq_none_iff (uid : Nat) (lt : String) (u : Nat) (r : String) :
    ∀ ls, extendFirstActiveLockout uid lt u r ls = none ↔
      hasActiveLockout ls uid lt = false := by
  intro ls
  induction ls with
  | nil => simp [extendFirstActiveLockout, hasActiveLockout]
  | cons l ls ih =>
    unfold extendFirstActiveLockout
    by_cases hm : lockoutMatches l uid lt = true
    · simp [hm, hasActiveLockout]
    · rw [if_neg hm]
      have hmf : lockoutMatches l uid lt = false := eq_false_of_ne_true hm
      cases hrec : extendFirstActiveLockout uid lt u r ls with
      | some ls2 =>
        simp only [hrec] at ih
        have hact : hasActiveLockout ls uid lt = true := by
          by_contra hf
          rw [Bool.not_eq_true] at hf
          exact absurd (ih.mpr hf) (by simp)
        unfold hasActiveLockout at hact ⊢
        simp [List.any_cons, hact]
      | none =>
        simp only [hrec] at ih
        have hact : hasActiveLockout ls uid lt = false := ih.mp trivial
        unfold hasActiveLockout at hact ⊢
        simp [List.any_cons, hmf, hact]

theorem extendFirst_found (uid : Nat) (lt : String) (u : Nat) (r : String)
    (l : SecurityLockout) (hl : lockoutMatches l uid lt = true) :
    ∀ (pre : List SecurityLockout) (post : List SecurityLockout),
    (∀ x ∈ pre, lockoutMatches x uid lt = false) →
    extendFirstActiveLockout uid lt u r (pre ++ l :: post)
      = some (pre ++ { l with lockedUntil := u, attemptCount := l.attemptCount + 1, reason := r } :: post) := by
  intro pre
  induction pre with
  | nil =>
    intro post _
    unfold extendFirstActiveLockout
    simp [hl]
  | cons x pre ih =>
    intro post hpre
    have hx : lockoutMatches x uid lt = false := hpre x (List.mem_cons_self x pre)
    have hrest := ih post (fun y hy => hpre y (List.mem_cons_of_mem x hy))
    show extendFirstActiveLockout uid lt u r (x :: (pre ++ l :: post)) = _
    unfold extendFirstActiveLockout
    rw [if_neg (by simp [hx]), hrest]
    rfl

/-- Hour-bucket of a time in minutes (`now.replace(minute=0, ...)`). -/
theorem record_operation_bucket (now : Nat) (st : SecState) (uid : Nat) (op : String) :
    record_operation now st uid op
      = (match bumpFirstRateRecord uid op (now / 60 * 60) st.rateLimits with
        | some rs => { st with rateLimits := rs }
        | none =>
          { st with rateLimits := st.rateLimits ++
              [{ userId := uid, operationType := op, count := 1,
                 windowStart := now / 60 * 60, createdAt := now }] }) := rfl

/-- Security state before the sixth generate: five generate operations
recorded at minutes 610..640, all in the hour bucket starting at 600. -/
def c7st5 : SecState :=
  record_operation 640 (record_operation 630 (record_operation 620 (record_operation 615
    (record_operation 610 { rateLimits := [], lockouts := [] } 7 "generate")
    7 "generate") 7 "generate") 7 "generate") 7 "generate"

/-- C7: for an operation kind with a configured hourly quota, the check sums
the counters whose window start lies within the trailing hour and denies
exactly when the sum has reached the quota; a denial creates a 60-minute
rate-limit lockout, or extends the first existing active one (bumping its
attempt counter) instead of duplicating it; concretely, after five recorded
generate operations in one hour bucket the sixth is denied (quota 5), a
repeat denial extends the same lockout, and the check is allowed again once
the hour boundary has passed. -/
theorem rate_limit_denies_and_locks (now : Nat) (st : SecState) (uid : Nat)
    (op : String) (limit : Nat) (hlim : List.lookup op RATE_LIMITS = some limit) :
    ((check_rate_limit now st uid op).1 = false ↔
      limit ≤ rateLimitSum st.rateLimits uid op (now - 60)) ∧
    (limit ≤ rateLimitSum st.rateLimits uid op (now - 60) →
      (hasActiveLockout st.lockouts uid "rate_limit" = false →
        (check_rate_limit now st uid op).2.lockouts
          = st.lockouts
            ++ [{ userId := uid, lockoutType := "rate_limit", lockedUntil := now + 60, reason := "Rate limit exceeded for " ++ op, attemptCount := 1, createdAt := now, isActive := true }]) ∧
      (∀ pre l post, st.lockouts = pre ++ l :: post →
        (∀ x ∈ pre, lockoutMatches x uid "rate_limit" = false) →
        lockoutMatches l uid "rate_limit" = true →
        (check_rate_limit now st uid op).2.lockouts
          = pre ++ { l with lockedUntil := now + 60, attemptCount := l.attemptCount + 1, reason := "Rate limit exceeded for " ++ op } :: post)) ∧
    (¬ limit ≤ rateLimitSum st.rateLimits uid op (now - 60) →
      check_rate_limit now st uid op = (true, st)) ∧
    (check_rate_limit 650 c7st5 7 "generate").1 = false ∧
    (check_rate_limit 650 c7st5 7 "generate").2.lockouts
      = [{ userId := 7, lockoutType := "rate_limit", lockedUntil := 710, reason := "Rate limit exceeded for generate", attemptCount := 1, createdAt := 650, isActive := true }] ∧
    (check_rate_limit 651 (check_rate_limit 650 c7st5 7 "generate").2 7 "generate").1
      = false ∧
    (check_rate_limit 651 (check_rate_limit 650 c7st5 7 "generate").2 7 "generate").2.lockouts
      = [{ userId := 7, lockoutType := "rate_limit", lockedUntil := 711, reason := "Rate limit exceeded for generate", attemptCount := 2, createdAt := 650, isActive := true }] ∧
    (check_rate_limit 661 c7st5 7 "generate").1 = true := by
  have hdur : (List.lookup "rate_limit" LOCKOUT_DURATIONS).getD 60 = 60 := rfl
  refine ⟨?_, ?_, ?_, by decide, by decide, by decide, by decide, by decide⟩
  · unfold check_rate_limit
    simp only [hlim]
    by_cases hle : limit ≤ rateLimitSum st.rateLimits uid op (now - 60)
    · rw [if_pos hle]
      simp [hle]
    · rw [if_neg hle]
      simp [hle]
  · intro hle
    have hsel : check_rate_limit now st uid op
        = (false, createLockout now st uid "rate_limit"
            ("Rate limit exceeded for " ++ op)) := by
      unfold check_rate_limit
      simp only [hlim]
      rw [if_pos hle]
    constructor
    · intro hno
      rw [hsel]
      show (createLockout now st uid "rate_limit" _).lockouts = _
      unfold createLockout
      rw [(extendFirst_eq_none_iff uid "rate_limit"
        (now + (List.lookup "rate_limit" LOCKOUT_DURATIONS).getD 60)
        ("Rate limit exceeded for " ++ op) st.lockouts).mpr hno, hdur]
    · intro pre l post hsplit hpre hl
      rw [hsel]
      show (createLockout now st uid "rate_limit" _).lockouts = _
      unfold createLockout
      rw [hsplit, extendFirst_found uid "rate_limit" _ _ l hl pre post hpre, hdur]
  · intro hle
    unfold check_rate_limit
    simp only [hlim]
    rw [if_neg hle]

theorem rate_limit_denies_and_locks_witness :
    ((check_rate_limit 650 c7st5 7 "generate").1 = false ↔
      5 ≤ rateLimitSum c7st5.rateLimits 7 "generate" (650 - 60)) ∧
    (5 ≤ rateLimitSum c7st5.rateLimits 7 "generate" (650 - 60) →
      (hasActiveLockout c7st5.lockouts 7 "rate_limit" = false →
        (check_rate_limit 650 c7st5 7 "generate").2.lockouts
          = c7st5.lockouts
            ++ [{ userId := 7, lockoutType := "rate_limit", lockedUntil := 650 + 60, reason := "Rate limit exceeded for " ++ "generate", attemptCount := 1, createdAt := 650, isActive := true }]) ∧
      (∀ pre l post, c7st5.lockouts = pre ++ l :: post →
        (∀ x ∈ pre, lockoutMatches x 7 "rate_limit" = false) →
        lockoutMatches l 7 "rate_limit" = true →
        (check_rate_limit 650 c7st5 7 "generate").2.lockouts
          = pre ++ { l with lockedUntil := 650 + 60, attemptCount := l.attemptCount + 1, reason := "Rate limit exceeded for " ++ "generate" } :: post)) ∧
    (¬ 5 ≤ rateLimitSum c7st5.rateLimits 7 "generate" (650 - 60) →
      check_rate_limit 650 c7st5 7 "generate" = (true, c7st5)) ∧
    (check_rate_limit 650 c7st5 7 "generate").1 = false ∧
    (check_rate_limit 650 c7st5 7 "generate").2.lockouts
      = [{ userId := 7, lockoutType := "rate_limit", lockedUntil := 710, reason := "Rate limit exceeded for generate", attemptCount := 1, createdAt := 650, isActive := true }] ∧
    (check_rate_limit 651 (check_rate_limit 650 c7st5 7 "generate").2 7 "generate").1
      = false ∧
    (check_rate_limit 651 (check_rate_limit 650 c7st5 7 "generate").2 7 "generate").2.lockouts
      = [{ userId := 7, lockoutType := "rate_limit", lockedUntil := 711, reason := "Rate limit exceeded for generate", attemptCount := 2, createdAt := 650, isActive := true }] ∧
    (check_rate_limit 661 c7st5 7 "generate").1 = true :=
  rate_limit_denies_and_locks 650 c7st5 7 "generate" 5 (by decide)

/-- Failure oracle for one maintenance run: whether each of the six steps
(expire stale keys, expiry reminders, queue-entry cleanup, gen-request
cleanup, anomaly scan, security retention sweep) raises. -/
structure MaintEnv where
  expireRaises : Bool
  remindersRaises : Bool
  cleanupQueueRaises : Bool
  cleanupGenRaises : Bool
  anomalyRaises : Bool
  securityCleanupRaises : Bool
deriving DecidableEq

/-- `MaintenanceWorker.run_maintenance_tasks` (worker.py), abstracted to the
list of steps that begin executing in one run.  Steps 1-4 are unguarded: an
exception propagates out of the method (through the `finally` that closes
the session) and the remaining steps are skipped.  Only steps 5 and 6 are
wrapped in their own try/except, so they run — and the run continues — no
matter whether they raise. -/
def run_maintenance_tasks (env : MaintEnv) : List Nat :=
  if env.expireRaises then [1]
  else if env.remindersRaises then [1, 2]
  else if env.cleanupQueueRaises then [1, 2, 3]
  else if env.cleanupGenRaises then [1, 2, 3, 4]
  else [1, 2, 3, 4, 5, 6]

/-- C9 counterexample: when step 1 (expire stale keys) raises, none of the
remaining five steps executes, so a failure in one step does block the
others. -/
theorem maintenance_step_failure_blocks_rest_counterexample :
    run_maintenance_tasks
        { expireRaises := true, remindersRaises := false, cleanupQueueRaises := false,
          cleanupGenRaises := false, anomalyRaises := false,
          securityCleanupRaises := false } = [1] ∧
    ¬ (2 ∈ run_maintenance_tasks
        { expireRaises := true, remindersRaises := false, cleanupQueueRaises := false,
          cleanupGenRaises := false, anomalyRaises := false,
          securityCleanupRaises := false }) := by
  decide

/-- C9 amended: only the anomaly scan (step 5) and the security retention
sweep (step 6) are isolated — when steps 1-4 succeed, all six steps execute
regardless of whether steps 5 or 6 raise; an exception in any of steps 1-4
aborts the remaining steps of the run. -/
theorem maintenance_only_security_steps_isolated (env : MaintEnv) :
    (env.expireRaises = false → env.remindersRaises = false →
      env.cleanupQueueRaises = false → env.cleanupGenRaises = false →
      run_maintenance_tasks env = [1, 2, 3, 4, 5, 6]) ∧
    (env.expireRaises = true → run_maintenance_tasks env = [1]) ∧
    (env.expireRaises = false → env.remindersRaises = true →
      run_maintenance_tasks env = [1, 2]) ∧
    (env.expireRaises = false → env.remindersRaises = false →
      env.cleanupQueueRaises = true → run_maintenance_tasks env = [1, 2, 3]) ∧
    (env.expireRaises = false → env.remindersRaises = false →
      env.cleanupQueueRaises = false → env.cleanupGenRaises = true →
      run_maintenance_tasks env = [1, 2, 3, 4]) := by
  obtain ⟨a, b, c, d, e, f⟩ := env
  cases a <;> cases b <;> cases c <;> cases d <;> cases e <;> cases f <;>
    simp [run_maintenance_tasks]

theorem maintenance_only_security_steps_isolated_witness :
    ((false : Bool) = false → (false : Bool) = false → (false : Bool) = false →
      (false : Bool) = false →
      run_maintenance_tasks
          { expireRaises := false, remindersRaises := false, cleanupQueueRaises := false,
            cleanupGenRaises := false, anomalyRaises := true,
            securityCleanupRaises := true } = [1, 2, 3, 4, 5, 6]) ∧
    ((false : Bool) = true →
      run_maintenance_tasks
          { expireRaises := false, remindersRaises := false, cleanupQueueRaises := false,
            cleanupGenRaises := false, anomalyRaises := true,
            securityCleanupRaises := true } = [1]) ∧
    ((false : Bool) = false → (false : Bool) = true →
      run_maintenance_tasks
          { expireRaises := false, remindersRaises := false, cleanupQueueRaises := false,
            cleanupGenRaises := false, anomalyRaises := true,
            securityCleanupRaises := true } = [1, 2]) ∧
    ((false : Bool) = false → (false : Bool) = false → (false : Bool) = true →
      run_maintenance_tasks
          { expireRaises := false, remindersRaises := false, cleanupQueueRaises := false,
            cleanupGenRaises := false, anomalyRaises := true,
            securityCleanupRaises := true } = [1, 2, 3]) ∧
    ((false : Bool) = false → (false : Bool) = false → (false : Bool) = false →
      (false : Bool) = true →
      run_maintenance_tasks
          { expireRaises := false, remindersRaises := false, cleanupQueueRaises := false,
            cleanupGenRaises := false, anomalyRaises := true,
            securityCleanupRaises := true } = [1, 2, 3, 4]) :=
  maintenance_only_security_steps_isolated
    { expireRaises := false, remindersRaises := false, cleanupQueueRaises := false,
      cleanupGenRaises := false, anomalyRaises := true, securityCleanupRaises := true }

end SSHPortal
